import Mathlib

/-!
Shallow embedding of `src/src/regexp_extract.rs`: the DataFusion
`regexp_extract` user-defined scalar function.

The `regex` crate is an external collaborator, so it is abstracted as a
`RegexEngine` parameter: compilation (`Regex::new`) either fails with a
message or yields a first-match capture function (`Regex::captures`).
A capture result is a list of `Option String`: index 0 is the whole
match, index g the g-th capture group, `none` a group that did not
participate in the match.  `Captures::len()` of the crate is the length
of that list.  `Captures::get(i)` is list lookup; the source calls
`.unwrap()` on it, which panics when the group did not participate, so
the embedding has an explicit `crash` outcome for Rust panics.
-/

set_option autoImplicit false

namespace RegexpExtract

/-- A compiled regex, abstracting `regex::Regex`: maps a haystack to the
captures of its leftmost-first match (`Regex::captures`), or `none` when
the pattern does not match.  In a capture list, index 0 is the whole
match and index g ≥ 1 the g-th group; a `none` entry is a capture group
that did not participate in the match. -/
abbrev CompiledRegex := String → Option (List (Option String))

/-- The regex compiler `Regex::new`, abstracted: a pattern string either
fails to compile (with the compiler's message) or yields a
`CompiledRegex`. -/
abbrev RegexEngine := String → Except String CompiledRegex

/-- The two `datafusion_common::ScalarValue` variants the UDF's exact
signature (Utf8, Utf8, Int64) can receive; the inner `Option` is
SQL-level nullability of the scalar. -/
inductive ScalarValue where
  | utf8 (v : Option String)
  | int64 (v : Option Int)
  deriving DecidableEq

/-- A dynamically typed Arrow array (`ArrayRef`); only the element types
of the UDF signature are relevant.  A `none` element is a null slot. -/
inductive ArrayRef where
  | stringArr (vs : List (Option String))
  | int64Arr (vs : List (Option Int))
  deriving DecidableEq

/-- `datafusion_expr::ColumnarValue`: a materialized array or a single
scalar to be broadcast. -/
inductive ColumnarValue where
  | array (a : ArrayRef)
  | scalar (s : ScalarValue)
  deriving DecidableEq

/-- `ScalarValue::to_array_of_size`: materialize a scalar into an array
of `n` identical values. -/
def ScalarValue.to_array_of_size : ScalarValue → Nat → ArrayRef
  | .utf8 v, n => .stringArr (List.replicate n v)
  | .int64 v, n => .int64Arr (List.replicate n v)

/-- The `datafusion_common::DataFusionError` variants the UDF
constructs. -/
inductive DFError where
  | internal (msg : String)
  | execution (msg : String)
  deriving DecidableEq

/-- Result of one invocation: a value, a `DataFusionError` (Rust
`Err`), or a Rust panic (`crash`, from `Option::unwrap` on `None`). -/
inductive Outcome (α : Type) where
  | ok (a : α)
  | err (e : DFError)
  | crash
  deriving DecidableEq

/-- `extract_input_and_pattern` from the source: normalize the first two
arguments to arrays of `num_rows` rows, broadcasting scalars. -/
def extract_input_and_pattern (arg1 arg2 : ColumnarValue) (num_rows : Nat) :
    Except DFError (ArrayRef × ArrayRef) :=
  let input_array : ArrayRef :=
    match arg1 with
    | .array a => a
    | .scalar s => s.to_array_of_size num_rows
  let pattern_array : ArrayRef :=
    match arg2 with
    | .array a => a
    | .scalar s => s.to_array_of_size num_rows
  .ok (input_array, pattern_array)

/-- `ArrayRef::as_any().downcast_ref::<StringArray>()`: succeeds exactly
on string arrays. -/
def ArrayRef.downcast_string : ArrayRef → Option (List (Option String))
  | .stringArr vs => some vs
  | _ => none

/-- `StringArray::is_null(i)`. -/
def arrayIsNull (vs : List (Option String)) (i : Nat) : Bool :=
  (vs.getD i none).isNone

/-- `StringArray::value(i)`: the string data of slot `i` (Arrow yields
the empty string for a null slot's data). -/
def arrayValue (vs : List (Option String)) (i : Nat) : String :=
  (vs.getD i none).getD ""

/-- The body of the per-row loop of `invoke_with_args` for a non-null
input value: compile the row's pattern (an error aborts the
invocation), take the first match's captures, and resolve the group
index.  `idx as usize` on a negative `i64` wraps to a huge index, so
`Captures::get` yields `None` and the `.unwrap()` panics; the same
`.unwrap()` panics on an in-range group that did not participate. -/
def evalRow (engine : RegexEngine) (input_val pattern : String) (idx : Int) :
    Outcome (Option String) :=
  match engine pattern with
  | .error e => .err (.execution ("Error compiling regex: " ++ e))
  | .ok compiled_regex =>
    match compiled_regex input_val with
    | some captures =>
      if idx < (captures.length : Int) then
        match (if 0 ≤ idx then captures.get? idx.toNat else none) with
        | some (some m) => .ok (some m)
        | _ => .crash
      else .ok (some "")
    | none => .ok (some "")

/-- One iteration of the row loop: null input rows append null without
touching the pattern; other rows run `evalRow` on the row's values. -/
def processRow (engine : RegexEngine) (input pattern : List (Option String))
    (idx : Int) (i : Nat) : Outcome (Option String) :=
  if arrayIsNull input i then .ok none
  else evalRow engine (arrayValue input i) (arrayValue pattern i) idx

/-- The row loop over a list of row indices, collecting the built
column; an error or panic at a row aborts before later rows run, as the
source's early `return` / panic does. -/
def processRowsAux (engine : RegexEngine) (input pattern : List (Option String))
    (idx : Int) : List Nat → Outcome (List (Option String))
  | [] => .ok []
  | i :: rest =>
    match processRow engine input pattern idx i with
    | .ok v =>
      match processRowsAux engine input pattern idx rest with
      | .ok vs => .ok (v :: vs)
      | .err e => .err e
      | .crash => .crash
    | .err e => .err e
    | .crash => .crash

/-- Steps 7–9 of `invoke_with_args`: the loop `for i in 0..num_rows`. -/
def processRows (engine : RegexEngine) (input pattern : List (Option String))
    (idx : Int) (num_rows : Nat) : Outcome (List (Option String)) :=
  processRowsAux engine input pattern idx (List.range num_rows)

/-- `datafusion_expr::ScalarFunctionArgs`, restricted to the fields the
UDF reads. -/
structure ScalarFunctionArgs where
  args : List ColumnarValue
  number_rows : Nat
  deriving DecidableEq

/-- Steps 5–8 of `invoke_with_args`: require the index argument to be a
present `Int64` scalar, reject a negative index, then run the row
loop. -/
def run_with_index (engine : RegexEngine)
    (input_array pattern_array : List (Option String)) (idx_col : ColumnarValue)
    (num_rows : Nat) : Outcome (List (Option String)) :=
  match idx_col with
  | .scalar (.int64 (some idx)) =>
    if idx < 0 then
      .err (.execution "Group index must be a non-negative integer.")
    else
      processRows engine input_array pattern_array idx num_rows
  | _ => .err (.internal "Expected a single Int64 for the index")

/-- Step 4 of `invoke_with_args`: downcast the two normalized arrays to
`StringArray`, then continue with the index check and the row loop. -/
def downcast_and_run (engine : RegexEngine)
    (input_array_ref pattern_array_ref : ArrayRef) (idx_col : ColumnarValue)
    (num_rows : Nat) : Outcome (List (Option String)) :=
  match input_array_ref.downcast_string with
  | none => .err (.internal "Expected a StringArray")
  | some input_array =>
    match pattern_array_ref.downcast_string with
    | none => .err (.internal "Expected a StringArray for pattern")
    | some pattern_array =>
      run_with_index engine input_array pattern_array idx_col num_rows

/-- `RegexpExtract::invoke_with_args`, step by step as in the source:
read the batch size, take the three arguments (indexing into a shorter
vector panics), broadcast the first two to arrays, downcast them to
string arrays, require the index argument to be a present `Int64`
scalar, reject a negative index, then run the row loop. -/
def invoke_with_args (engine : RegexEngine) (args : ScalarFunctionArgs) :
    Outcome (List (Option String)) :=
  match args.args.get? 0, args.args.get? 1, args.args.get? 2 with
  | some input_col, some pattern_col, some idx_col =>
    match extract_input_and_pattern input_col pattern_col args.number_rows with
    | .error e => .err e
    | .ok (input_array_ref, pattern_array_ref) =>
      downcast_and_run engine input_array_ref pattern_array_ref idx_col
        args.number_rows
  | _, _, _ => .crash

/-- `true` exactly when the outcome is a returned `DataFusionError`
(neither a value nor a panic). -/
def Outcome.isErr {α : Type} : Outcome α → Bool
  | .err _ => true
  | _ => false

/-- A `ColumnarValue` that is well typed for the Utf8 positions of the
signature: a string array or a string scalar. -/
def isStringCol : ColumnarValue → Bool
  | .array (.stringArr _) => true
  | .scalar (.utf8 _) => true
  | _ => false

/-! ### Concrete regex engines for evaluating the embedding

Each one models the documented behavior of the `regex` crate on the
specific patterns named in its doc comment. -/

/-- An engine under which every pattern compiles to a regex that never
matches any haystack. -/
def noMatchEngine : RegexEngine := fun _ => .ok (fun _ => none)

/-- Model of the `regex` crate restricted to the pattern
`(\d+)-(\d+)` (two capture groups): on the haystack `100-200` the first
match is the whole string, group 1 is `100`, group 2 is `200`; no other
haystack matches.  Every other pattern string (standing for e.g.
`[invalid`) fails to compile. -/
def numPairEngine : RegexEngine := fun p =>
  if p = "(\\d+)-(\\d+)" then
    .ok (fun t =>
      if t = "100-200" then some [some "100-200", some "100", some "200"]
      else none)
  else .error "regex parse error"

/-- Model of the `regex` crate restricted to the pattern `(a)|(b)`
(two capture groups in an alternation).  On the haystack `a`, the first
match is `a`, group 1 captures `a`, and group 2 did not participate
(its alternation branch did not fire), so `Captures::len()` is 3 while
`Captures::get(2)` is `None`.  No other haystack matches, and every
other pattern fails to compile. -/
def altEngine : RegexEngine := fun p =>
  if p = "(a)|(b)" then
    .ok (fun t => if t = "a" then some [some "a", some "a", none] else none)
  else .error "regex parse error"

/-! ### Lemmas about the row loop -/

theorem processRowsAux_cons_ok_iff (engine : RegexEngine)
    (input pattern : List (Option String)) (idx : Int) (i : Nat) (rest : List Nat)
    (out : List (Option String)) :
    processRowsAux engine input pattern idx (i :: rest) = .ok out ↔
      ∃ v vs, processRow engine input pattern idx i = .ok v ∧
        processRowsAux engine input pattern idx rest = .ok vs ∧ out = v :: vs := by
  cases h1 : processRow engine input pattern idx i <;>
    cases h2 : processRowsAux engine input pattern idx rest <;>
      simp [processRowsAux, h1, h2, eq_comm]

theorem processRowsAux_ok_length (engine : RegexEngine)
    (input pattern : List (Option String)) (idx : Int) :
    ∀ (l : List Nat) (out : List (Option String)),
      processRowsAux engine input pattern idx l = .ok out → out.length = l.length := by
  intro l
  induction l with
  | nil =>
    intro out h
    simp only [processRowsAux] at h
    cases h
    rfl
  | cons i rest ih =>
    intro out h
    rcases (processRowsAux_cons_ok_iff engine input pattern idx i rest out).mp h with
      ⟨v, vs, _, hvs, rfl⟩
    simp [ih vs hvs]

theorem processRowsAux_ok_get (engine : RegexEngine)
    (input pattern : List (Option String)) (idx : Int) :
    ∀ (l : List Nat) (out : List (Option String)) (k i : Nat),
      processRowsAux engine input pattern idx l = .ok out → l.get? k = some i →
        ∃ v, processRow engine input pattern idx i = .ok v ∧ out.get? k = some v := by
  intro l
  induction l with
  | nil => intro out k i _ hk; simp at hk
  | cons j rest ih =>
    intro out k i h hk
    rcases (processRowsAux_cons_ok_iff engine input pattern idx j rest out).mp h with
      ⟨v, vs, hv, hvs, rfl⟩
    cases k with
    | zero =>
      simp only [List.get?] at hk
      cases hk
      exact ⟨v, hv, rfl⟩
    | succ k =>
      simp only [List.get?] at hk ⊢
      exact ih vs k i hvs hk

theorem processRow_ext (engine : RegexEngine) (a b a' b' : List (Option String))
    (idx : Int) (i : Nat)
    (ha : a.getD i none = a'.getD i none) (hb : b.getD i none = b'.getD i none) :
    processRow engine a b idx i = processRow engine a' b' idx i := by
  unfold processRow arrayIsNull arrayValue
  rw [ha, hb]

theorem processRowsAux_congr (engine : RegexEngine) (a b a' b' : List (Option String))
    (idx : Int) :
    ∀ l : List Nat,
      (∀ i ∈ l, processRow engine a b idx i = processRow engine a' b' idx i) →
      processRowsAux engine a b idx l = processRowsAux engine a' b' idx l := by
  intro l
  induction l with
  | nil => intro _; rfl
  | cons i rest ih =>
    intro h
    simp only [processRowsAux]
    rw [h i (List.mem_cons_self i rest), ih (fun j hj => h j (List.mem_cons_of_mem i hj))]

theorem evalRow_ok_some (engine : RegexEngine) (s p : String) (idx : Int)
    (v : Option String) (h : evalRow engine s p idx = .ok v) : ∃ m : String, v = some m := by
  unfold evalRow at h
  split at h
  · cases h
  · split at h
    · split at h
      · split at h
        · cases h; exact ⟨_, rfl⟩
        · cases h
      · cases h; exact ⟨"", rfl⟩
    · cases h; exact ⟨"", rfl⟩

theorem processRow_err_execution (engine : RegexEngine)
    (a b : List (Option String)) (idx : Int) (i : Nat) (er : DFError)
    (h : processRow engine a b idx i = .err er) : ∃ msg, er = .execution msg := by
  unfold processRow at h
  split at h
  · cases h
  · unfold evalRow at h
    split at h
    · cases h; exact ⟨_, rfl⟩
    · split at h
      · split at h
        · split at h
          · cases h
          · cases h
        · cases h
      · cases h

theorem processRow_of_null (engine : RegexEngine) (a b : List (Option String))
    (idx : Int) (i : Nat) (h : a.getD i none = none) :
    processRow engine a b idx i = .ok none := by
  unfold processRow arrayIsNull
  rw [h]
  rfl

theorem processRowsAux_first_err (engine : RegexEngine)
    (a b : List (Option String)) (idx : Int) :
    ∀ (l : List Nat) (k i : Nat) (er : DFError),
      l.get? k = some i →
      (∀ k' j, k' < k → l.get? k' = some j →
        ∃ v, processRow engine a b idx j = .ok v) →
      processRow engine a b idx i = .err er →
      processRowsAux engine a b idx l = .err er := by
  intro l
  induction l with
  | nil => intro k i er hk _ _; simp at hk
  | cons j rest ih =>
    intro k i er hk hprev herr
    cases k with
    | zero =>
      simp only [List.get?] at hk
      cases hk
      simp [processRowsAux, herr]
    | succ k =>
      simp only [List.get?] at hk
      rcases hprev 0 j (Nat.succ_pos k) rfl with ⟨v, hv⟩
      have hrest := ih k i er hk
        (fun k' j' hk' hj' => hprev (k' + 1) j' (Nat.succ_lt_succ hk') hj')
        herr
      simp [processRowsAux, hv, hrest]

/-- Unfolding of `invoke_with_args` on the standard well-typed argument
shape: two materialized string arrays and a present `Int64` scalar
index. -/
theorem invoke_with_args_std (engine : RegexEngine)
    (inp pat : List (Option String)) (idx : Int) (n : Nat) :
    invoke_with_args engine
        ⟨[.array (.stringArr inp), .array (.stringArr pat),
          .scalar (.int64 (some idx))], n⟩ =
      if idx < 0 then .err (.execution "Group index must be a non-negative integer.")
      else processRows engine inp pat idx n := by
  unfold invoke_with_args extract_input_and_pattern
  rfl

theorem run_with_index_ok_length (engine : RegexEngine)
    (a b : List (Option String)) (idx_col : ColumnarValue) (n : Nat)
    (out : List (Option String)) (h : run_with_index engine a b idx_col n = .ok out) :
    out.length = n := by
  unfold run_with_index at h
  split at h
  · split at h
    · cases h
    · exact (processRowsAux_ok_length _ _ _ _ _ _ h).trans (List.length_range n)
  · cases h

theorem downcast_and_run_ok_length (engine : RegexEngine)
    (ar br : ArrayRef) (idx_col : ColumnarValue) (n : Nat)
    (out : List (Option String)) (h : downcast_and_run engine ar br idx_col n = .ok out) :
    out.length = n := by
  unfold downcast_and_run at h
  split at h
  · cases h
  · split at h
    · cases h
    · exact run_with_index_ok_length _ _ _ _ _ _ h

/-- On any successful invocation, the output column has exactly
`number_rows` rows. -/
theorem invoke_ok_length (engine : RegexEngine) (args : ScalarFunctionArgs)
    (out : List (Option String)) (h : invoke_with_args engine args = .ok out) :
    out.length = args.number_rows := by
  unfold invoke_with_args at h
  split at h
  · split at h
    · cases h
    · exact downcast_and_run_ok_length _ _ _ _ _ _ h
  · cases h

/-- On the standard well-typed argument shape, a successful invocation
determines each output row as the result of processing that row. -/
theorem invoke_std_ok_row (engine : RegexEngine) (inp pat : List (Option String))
    (idx : Int) (n i : Nat) (out : List (Option String))
    (h : invoke_with_args engine
        ⟨[.array (.stringArr inp), .array (.stringArr pat),
          .scalar (.int64 (some idx))], n⟩ = .ok out)
    (hi : i < n) :
    ∃ v, processRow engine inp pat idx i = .ok v ∧ out.get? i = some v := by
  rw [invoke_with_args_std] at h
  split at h
  · cases h
  · exact processRowsAux_ok_get _ _ _ _ _ _ i i h
      (by simp [List.get?_eq_getElem?, List.getElem?_range hi])

theorem run_with_index_zero (engine : RegexEngine)
    (aa bb : List (Option String)) (idx : Int) (hidx : 0 ≤ idx) :
    run_with_index engine aa bb (.scalar (.int64 (some idx))) 0 = .ok [] := by
  show (if idx < 0 then
      Outcome.err (.execution "Group index must be a non-negative integer.")
    else processRows engine aa bb idx 0) = .ok []
  rw [if_neg (not_lt.mpr hidx)]
  rfl

theorem processRow_of_some (engine : RegexEngine) (a b : List (Option String))
    (idx : Int) (i : Nat) (t : String) (h : a.getD i none = some t) :
    processRow engine a b idx i = evalRow engine t (arrayValue b i) idx := by
  unfold processRow arrayIsNull arrayValue
  rw [h]
  rfl

theorem evalRow_compile_err (engine : RegexEngine) (t p : String) (idx : Int)
    (e : String) (h : engine p = .error e) :
    evalRow engine t p idx = .err (.execution ("Error compiling regex: " ++ e)) := by
  simp [evalRow, h]

theorem evalRow_no_match (engine : RegexEngine) (t p : String) (idx : Int)
    (re : CompiledRegex) (hre : engine p = .ok re) (h : re t = none) :
    evalRow engine t p idx = .ok (some "") := by
  simp [evalRow, hre, h]

theorem evalRow_out_of_range (engine : RegexEngine) (t p : String) (idx : Int)
    (re : CompiledRegex) (caps : List (Option String))
    (hre : engine p = .ok re) (hcaps : re t = some caps)
    (hlen : (caps.length : Int) ≤ idx) :
    evalRow engine t p idx = .ok (some "") := by
  simp [evalRow, hre, hcaps, not_lt.mpr hlen]

theorem evalRow_group (engine : RegexEngine) (t p : String) (g : Nat)
    (re : CompiledRegex) (caps : List (Option String)) (m : String)
    (hre : engine p = .ok re) (hcaps : re t = some caps)
    (hm : caps.get? g = some (some m)) :
    evalRow engine t p (g : Int) = .ok (some m) := by
  have hg : g < caps.length := (List.get?_eq_some.mp hm).1
  have hlt : (g : Int) < (caps.length : Int) := by exact_mod_cast hg
  have hm' : caps[g]? = some (some m) := by
    simpa [List.get?_eq_getElem?] using hm
  simp [evalRow, hre, hcaps, hlt, Int.toNat_natCast, hm', Int.natCast_nonneg]

/-! ### The claims -/

/-- Claim C1: for every row with non-null text whose pattern compiles
but produces no match, or whose non-negative group index is at least
the match's `Captures::len()` (i.e. exceeds the number of capture
groups of that row's pattern), the row evaluates to the empty string —
not null, not an error, not a panic — and on a successful invocation
the output at that row is the empty string. -/
theorem claim_C1 (engine : RegexEngine) (inp pat : List (Option String))
    (idx : Int) (n i : Nat) (t : String) (re : CompiledRegex)
    (out : List (Option String))
    (hi : i < n) (hidx : 0 ≤ idx)
    (ht : inp.getD i none = some t)
    (hre : engine (arrayValue pat i) = .ok re)
    (hnm : re t = none ∨ ∃ caps, re t = some caps ∧ (caps.length : Int) ≤ idx)
    (hok : invoke_with_args engine
        ⟨[.array (.stringArr inp), .array (.stringArr pat),
          .scalar (.int64 (some idx))], n⟩ = .ok out) :
    processRow engine inp pat idx i = .ok (some "") ∧
      out.get? i = some (some "") := by
  have hrow : processRow engine inp pat idx i = .ok (some "") := by
    rw [processRow_of_some engine inp pat idx i t ht]
    rcases hnm with hnm | ⟨caps, hcaps, hlen⟩
    · exact evalRow_no_match engine t _ idx re hre hnm
    · exact evalRow_out_of_range engine t _ idx re caps hre hcaps hlen
  refine ⟨hrow, ?_⟩
  rcases invoke_std_ok_row engine inp pat idx n i out hok hi with ⟨v, hv, hout⟩
  rw [hrow] at hv
  cases hv
  exact hout

/-- Claim C1 witness: a concrete one-row batch with non-matching
pattern yields the empty string at that row. -/
theorem claim_C1_witness :
    processRow noMatchEngine [some "abc"] [some "(x)"] 0 0 = .ok (some "") ∧
      ([some ""] : List (Option String)).get? 0 = some (some "") :=
  claim_C1 noMatchEngine [some "abc"] [some "(x)"] 0 1 0 "abc" (fun _ => none)
    [some ""] (by decide) (by decide) rfl rfl (Or.inl rfl) rfl

/-- Claim C2 (code bug witness): on the pattern `(a)|(b)` with haystack
`a` and group index 2, the group index is within the pattern's declared
group count but the group did not participate in the match, and the
invocation panics (`Option::unwrap` on `None` at
`captures.get(idx as usize).unwrap()`) instead of producing the empty
string. -/
theorem claim_C2_code_bug :
    invoke_with_args altEngine
        ⟨[.array (.stringArr [some "a"]), .array (.stringArr [some "(a)|(b)"]),
          .scalar (.int64 (some 2))], 1⟩ = .crash := by
  rfl

/-- Claim C3: for a row with non-null text whose pattern compiles and
has `k` capture groups (`Captures::len() = k + 1`), if the pattern
matches and `g ≤ k` names a group that captured the substring `m` of
the first match (`g = 0` being the whole match by the capture list's
convention), the row evaluates to `m`, and on a successful invocation
output row `i` equals `m`. -/
theorem claim_C3 (engine : RegexEngine) (inp pat : List (Option String))
    (n i k g : Nat) (t m : String) (re : CompiledRegex)
    (caps : List (Option String)) (out : List (Option String))
    (hi : i < n)
    (ht : inp.getD i none = some t)
    (hre : engine (arrayValue pat i) = .ok re)
    (hcaps : re t = some caps)
    (hk : caps.length = k + 1)
    (hg : g ≤ k)
    (hm : caps.get? g = some (some m))
    (hok : invoke_with_args engine
        ⟨[.array (.stringArr inp), .array (.stringArr pat),
          .scalar (.int64 (some (g : Int)))], n⟩ = .ok out) :
    processRow engine inp pat (g : Int) i = .ok (some m) ∧
      out.get? i = some (some m) := by
  have hrow : processRow engine inp pat (g : Int) i = .ok (some m) := by
    rw [processRow_of_some engine inp pat (g : Int) i t ht]
    exact evalRow_group engine t _ g re caps m hre hcaps hm
  refine ⟨hrow, ?_⟩
  rcases invoke_std_ok_row engine inp pat (g : Int) n i out hok hi with ⟨v, hv, hout⟩
  rw [hrow] at hv
  cases hv
  exact hout

/-- Claim C3 witness: extracting group 1 of `(\d+)-(\d+)` from
`100-200` yields `100`; group 0 would be the whole match. -/
theorem claim_C3_witness :
    processRow numPairEngine [some "100-200"] [some "(\\d+)-(\\d+)"] ((1 : Nat) : Int) 0 =
        .ok (some "100") ∧
      ([some "100"] : List (Option String)).get? 0 = some (some "100") :=
  claim_C3 numPairEngine [some "100-200"] [some "(\\d+)-(\\d+)"] 1 0 2 1 "100-200"
    "100" (fun t => if t = "100-200" then some [some "100-200", some "100", some "200"] else none)
    [some "100-200", some "100", some "200"] [some "100"]
    (by decide) rfl rfl rfl rfl (by decide) rfl rfl

/-- Claim C4: a row with null text yields a null output row, and the
pattern value at that row is never inspected or compiled: replacing it
by anything (pattern arrays agreeing everywhere else) leaves the entire
invocation outcome unchanged. -/
theorem claim_C4 (engine : RegexEngine) (inp pat pat' : List (Option String))
    (idx : Int) (n i : Nat) (out : List (Option String))
    (hnull : inp.getD i none = none) (hi : i < n)
    (hagree : ∀ j, j ≠ i → pat.getD j none = pat'.getD j none)
    (hok : invoke_with_args engine
        ⟨[.array (.stringArr inp), .array (.stringArr pat),
          .scalar (.int64 (some idx))], n⟩ = .ok out) :
    invoke_with_args engine
        ⟨[.array (.stringArr inp), .array (.stringArr pat),
          .scalar (.int64 (some idx))], n⟩ =
      invoke_with_args engine
        ⟨[.array (.stringArr inp), .array (.stringArr pat'),
          .scalar (.int64 (some idx))], n⟩ ∧
      processRow engine inp pat idx i = .ok none ∧
      out.get? i = some none := by
  have hinv : invoke_with_args engine
      ⟨[.array (.stringArr inp), .array (.stringArr pat),
        .scalar (.int64 (some idx))], n⟩ =
      invoke_with_args engine
      ⟨[.array (.stringArr inp), .array (.stringArr pat'),
        .scalar (.int64 (some idx))], n⟩ := by
    rw [invoke_with_args_std, invoke_with_args_std]
    by_cases hneg : idx < 0
    · rw [if_pos hneg, if_pos hneg]
    · rw [if_neg hneg, if_neg hneg]
      unfold processRows
      apply processRowsAux_congr
      intro j hj
      by_cases hji : j = i
      · subst hji
        rw [processRow_of_null engine inp pat idx j hnull,
          processRow_of_null engine inp pat' idx j hnull]
      · exact processRow_ext engine inp pat inp pat' idx j rfl (hagree j hji)
  refine ⟨hinv, processRow_of_null engine inp pat idx i hnull, ?_⟩
  rcases invoke_std_ok_row engine inp pat idx n i out hok hi with ⟨v, hv, hout⟩
  rw [processRow_of_null engine inp pat idx i hnull] at hv
  cases hv
  exact hout

/-- Claim C4 witness: a one-row batch with null text yields a null row
and ignores the row's pattern. -/
theorem claim_C4_witness :
    invoke_with_args noMatchEngine
        ⟨[.array (.stringArr [none]), .array (.stringArr [some "p"]),
          .scalar (.int64 (some 0))], 1⟩ =
      invoke_with_args noMatchEngine
        ⟨[.array (.stringArr [none]), .array (.stringArr [some "q"]),
          .scalar (.int64 (some 0))], 1⟩ ∧
      processRow noMatchEngine [none] [some "p"] 0 0 = .ok none ∧
      ([none] : List (Option String)).get? 0 = some none :=
  claim_C4 noMatchEngine [none] [some "p"] [some "q"] 0 1 0 [none] rfl (by decide)
    (by
      intro j hj
      cases j with
      | zero => exact absurd rfl hj
      | succ j => rfl)
    rfl

/-- Claim C5 counterexample: a batch whose only row has a pattern that
fails to compile, but null text.  The invocation succeeds with a null
row instead of returning an execution error, because the pattern of a
null-text row is never compiled, so the claim's "for any text values"
fails. -/
theorem claim_C5_counterexample :
    numPairEngine "[invalid" = .error "regex parse error" ∧
      invoke_with_args numPairEngine
        ⟨[.array (.stringArr [none]), .array (.stringArr [some "[invalid"]),
          .scalar (.int64 (some 0))], 1⟩ = .ok [none] :=
  ⟨rfl, rfl⟩

/-- Claim C5 (amended): if row `i` has non-null text and its pattern
fails to compile, every earlier row evaluates normally, and the group
index is a present non-negative `Int64` scalar, then the whole
invocation returns the execution error carrying the compiler's message
(no partial results). -/
theorem claim_C5_amended (engine : RegexEngine) (inp pat : List (Option String))
    (idx : Int) (n i : Nat) (t emsg : String)
    (hidx : 0 ≤ idx) (hi : i < n)
    (ht : inp.getD i none = some t)
    (herr : engine (arrayValue pat i) = .error emsg)
    (hprev : ∀ j, j < i → ∃ v, processRow engine inp pat idx j = .ok v) :
    invoke_with_args engine
        ⟨[.array (.stringArr inp), .array (.stringArr pat),
          .scalar (.int64 (some idx))], n⟩ =
      .err (.execution ("Error compiling regex: " ++ emsg)) := by
  rw [invoke_with_args_std, if_neg (not_lt.mpr hidx)]
  unfold processRows
  apply processRowsAux_first_err engine inp pat idx (List.range n) i i
  · simp [List.get?_eq_getElem?, List.getElem?_range hi]
  · intro k' j hk' hj
    have hk'n : k' < n := lt_trans hk' hi
    have : j = k' := by
      simpa [List.get?_eq_getElem?, List.getElem?_range hk'n] using hj.symm
    subst this
    exact hprev j hk'
  · rw [processRow_of_some engine inp pat idx i t ht]
    exact evalRow_compile_err engine t _ idx emsg herr

/-- Claim C5 witness: a malformed pattern at the first (non-null) row
aborts the invocation with the compile error. -/
theorem claim_C5_amended_witness :
    invoke_with_args numPairEngine
        ⟨[.array (.stringArr [some "a"]), .array (.stringArr [some "[invalid"]),
          .scalar (.int64 (some 0))], 1⟩ =
      .err (.execution ("Error compiling regex: " ++ "regex parse error")) :=
  claim_C5_amended numPairEngine [some "a"] [some "[invalid"] 0 1 0 "a"
    "regex parse error" (by decide) (by decide) rfl rfl
    (by intro j hj; exact absurd hj (Nat.not_lt_zero j))

/-- Claim C6: whenever the group-index argument is not a present single
`Int64` scalar, or is a negative one (the hypothesis says exactly: if
it is a present `Int64` scalar then it is negative), the whole
invocation fails with a `DataFusionError`, for any text and pattern
arguments (malformed patterns included) and any batch size (`N = 0`
included); no row is evaluated — the outcome does not even depend on
the regex engine. -/
theorem claim_C6 (engine engine' : RegexEngine) (a b c : ColumnarValue) (n : Nat)
    (hbad : ∀ idx : Int, c = .scalar (.int64 (some idx)) → idx < 0) :
    (invoke_with_args engine ⟨[a, b, c], n⟩).isErr = true ∧
      invoke_with_args engine ⟨[a, b, c], n⟩ =
        invoke_with_args engine' ⟨[a, b, c], n⟩ := by
  have hc : ∀ (e : RegexEngine) (aa bb : List (Option String)),
      (run_with_index e aa bb c n).isErr = true ∧
        run_with_index e aa bb c n = run_with_index engine' aa bb c n := by
    intro e aa bb
    rcases c with ar | sv
    · exact ⟨rfl, rfl⟩
    · rcases sv with v | v
      · exact ⟨rfl, rfl⟩
      · rcases v with _ | idx
        · exact ⟨rfl, rfl⟩
        · have hneg := hbad idx rfl
          constructor
          · show (Outcome.isErr (if idx < 0 then
                .err (.execution "Group index must be a non-negative integer.")
              else processRows e aa bb idx n)) = true
            rw [if_pos hneg]
            rfl
          · show (if idx < 0 then
                Outcome.err (.execution "Group index must be a non-negative integer.")
              else processRows e aa bb idx n) =
              (if idx < 0 then
                Outcome.err (.execution "Group index must be a non-negative integer.")
              else processRows engine' aa bb idx n)
            rw [if_pos hneg, if_pos hneg]
  rcases a with ⟨va | va⟩ | ⟨v | v⟩ <;> rcases b with ⟨vb | vb⟩ | ⟨w | w⟩ <;>
    first
      | exact hc engine _ _
      | exact ⟨rfl, rfl⟩

/-- Claim C6 witness: a negative index with `N = 0` and a malformed
pattern still fails, identically under two different engines. -/
theorem claim_C6_witness :
    (invoke_with_args noMatchEngine
        ⟨[.scalar (.utf8 (some "x")), .array (.stringArr [some "[invalid"]),
          .scalar (.int64 (some (-1)))], 0⟩).isErr = true ∧
      invoke_with_args noMatchEngine
        ⟨[.scalar (.utf8 (some "x")), .array (.stringArr [some "[invalid"]),
          .scalar (.int64 (some (-1)))], 0⟩ =
      invoke_with_args numPairEngine
        ⟨[.scalar (.utf8 (some "x")), .array (.stringArr [some "[invalid"]),
          .scalar (.int64 (some (-1)))], 0⟩ :=
  claim_C6 noMatchEngine numPairEngine (.scalar (.utf8 (some "x")))
    (.array (.stringArr [some "[invalid"])) (.scalar (.int64 (some (-1)))) 0
    (by intro idx h; simp at h; omega)

/-- Claim C7: broadcast equivalence — a materialized column of `N`
identical values and the single scalar form of that value produce
identical outcomes (same values, same errors), independently for the
text argument and for the pattern argument. -/
theorem claim_C7 (engine : RegexEngine) (v w : Option String)
    (x y c : ColumnarValue) (n : Nat) :
    (invoke_with_args engine ⟨[.array (.stringArr (List.replicate n v)), y, c], n⟩ =
        invoke_with_args engine ⟨[.scalar (.utf8 v), y, c], n⟩) ∧
      (invoke_with_args engine ⟨[x, .array (.stringArr (List.replicate n w)), c], n⟩ =
        invoke_with_args engine ⟨[x, .scalar (.utf8 w), c], n⟩) :=
  ⟨rfl, rfl⟩

/-- Claim C8: row independence and determinism — output row `i` of a
successful invocation is a function of the text value at row `i`, the
pattern value at row `i`, and the shared group index alone; two
invocations agreeing on those agree at row `i`, whatever their other
rows and batch sizes are. -/
theorem claim_C8 (engine : RegexEngine)
    (inp₁ pat₁ inp₂ pat₂ : List (Option String)) (idx : Int)
    (n₁ n₂ i : Nat) (out₁ out₂ : List (Option String))
    (hi₁ : i < n₁) (hi₂ : i < n₂)
    (htext : inp₁.getD i none = inp₂.getD i none)
    (hpat : pat₁.getD i none = pat₂.getD i none)
    (h₁ : invoke_with_args engine
        ⟨[.array (.stringArr inp₁), .array (.stringArr pat₁),
          .scalar (.int64 (some idx))], n₁⟩ = .ok out₁)
    (h₂ : invoke_with_args engine
        ⟨[.array (.stringArr inp₂), .array (.stringArr pat₂),
          .scalar (.int64 (some idx))], n₂⟩ = .ok out₂) :
    out₁.get? i = out₂.get? i := by
  rcases invoke_std_ok_row engine inp₁ pat₁ idx n₁ i out₁ h₁ hi₁ with ⟨v₁, hv₁, ho₁⟩
  rcases invoke_std_ok_row engine inp₂ pat₂ idx n₂ i out₂ h₂ hi₂ with ⟨v₂, hv₂, ho₂⟩
  rw [processRow_ext engine inp₁ pat₁ inp₂ pat₂ idx i htext hpat, hv₂] at hv₁
  cases hv₁
  rw [ho₁, ho₂]

/-- Claim C8 witness: two batches of different sizes agreeing at row 0
produce the same row-0 output. -/
theorem claim_C8_witness :
    ([some ""] : List (Option String)).get? 0 =
      ([some "", some ""] : List (Option String)).get? 0 :=
  claim_C8 noMatchEngine [some "t"] [some "p"] [some "t", some "z"]
    [some "p", some "q"] 0 1 2 0 [some ""] [some "", some ""]
    (by decide) (by decide) rfl rfl rfl rfl

/-- Claim C9: every successful invocation returns a column of exactly
`number_rows` rows, and an `N = 0` batch with well-typed string
arguments and a present non-negative `Int64` index succeeds with the
empty column. -/
theorem claim_C9 (engine : RegexEngine) (args : ScalarFunctionArgs)
    (out : List (Option String)) (a b : ColumnarValue) (idx : Int)
    (hok : invoke_with_args engine args = .ok out)
    (ha : isStringCol a = true) (hb : isStringCol b = true) (hidx : 0 ≤ idx) :
    out.length = args.number_rows ∧
      invoke_with_args engine ⟨[a, b, .scalar (.int64 (some idx))], 0⟩ = .ok [] := by
  refine ⟨invoke_ok_length engine args out hok, ?_⟩
  rcases a with ⟨va | va⟩ | ⟨v | v⟩ <;> rcases b with ⟨vb | vb⟩ | ⟨w | w⟩ <;>
    first
      | exact run_with_index_zero engine _ _ idx hidx
      | exact Bool.noConfusion ha
      | exact Bool.noConfusion hb

/-- Claim C9 witness: a one-row batch gives a one-row column, and an
empty batch succeeds with the empty column. -/
theorem claim_C9_witness :
    ([some ""] : List (Option String)).length = 1 ∧
      invoke_with_args noMatchEngine
        ⟨[.array (.stringArr ([] : List (Option String))), .scalar (.utf8 none),
          .scalar (.int64 (some 0))], 0⟩ = .ok [] :=
  claim_C9 noMatchEngine
    ⟨[.array (.stringArr [some "x"]), .array (.stringArr [some "p"]),
      .scalar (.int64 (some 0))], 1⟩
    [some ""] (.array (.stringArr ([] : List (Option String)))) (.scalar (.utf8 none)) 0
    rfl rfl rfl (by decide)

/-- Claim C10: on a successful invocation over the standard well-typed
argument shape, output row `i` is null exactly when the text at row `i`
is null; non-null text never yields a null output row. -/
theorem claim_C10 (engine : RegexEngine) (inp pat : List (Option String))
    (idx : Int) (n i : Nat) (out : List (Option String))
    (hi : i < n)
    (hok : invoke_with_args engine
        ⟨[.array (.stringArr inp), .array (.stringArr pat),
          .scalar (.int64 (some idx))], n⟩ = .ok out) :
    out.get? i = some none ↔ inp.getD i none = none := by
  rcases invoke_std_ok_row engine inp pat idx n i out hok hi with ⟨v, hv, hout⟩
  rw [hout]
  cases hnull : inp.getD i none with
  | none =>
    rw [processRow_of_null engine inp pat idx i hnull] at hv
    cases hv
    simp
  | some t =>
    rw [processRow_of_some engine inp pat idx i t hnull] at hv
    rcases evalRow_ok_some engine t (arrayValue pat i) idx v hv with ⟨m, rfl⟩
    simp

/-- Claim C10 witness: a null row stays null, and a non-matching
non-null row is the empty string rather than null. -/
theorem claim_C10_witness :
    (([none, some ""] : List (Option String)).get? 0 = some none ↔
      ([none, some "x"] : List (Option String)).getD 0 none = none) :=
  claim_C10 noMatchEngine [none, some "x"] [some "p", some "p"] 0 2 0
    [none, some ""] (by decide) rfl

end RegexpExtract
